import Mathlib

/-!
Shallow embedding of the influxdb meta service core: the store component
of services/meta/store.go, the Service shutdown path of
services/meta/service.go, and the local node identity persistence.

Go channels of unit type used purely for signaling are modelled by a
channel system: each channel is a natural-number id, and a channel is
signaled exactly when its id is in the closed set. Closing an already
closed channel is a Go runtime panic, modelled explicitly.
-/

/-- A system of signal channels. Fresh channels come from nextId; a channel
is signaled (closed) exactly when its id is listed in closedIds. -/
structure ChanSys where
  nextId : Nat
  closedIds : List Nat
  deriving DecidableEq

/-- Allocate a fresh, unsignaled channel. -/
def ChanSys.alloc (cs : ChanSys) : Nat × ChanSys :=
  (cs.nextId, ⟨cs.nextId + 1, cs.closedIds⟩)

/-- Close (signal) a channel. -/
def ChanSys.closeChan (cs : ChanSys) (c : Nat) : ChanSys :=
  ⟨cs.nextId, c :: cs.closedIds⟩

/-- Whether a channel is signaled. -/
def ChanSys.isClosed (cs : ChanSys) (c : Nat) : Bool :=
  cs.closedIds.contains c

/-- A meta node record of the Metadata Document; TCPHost is its
consensus-transport address. -/
structure NodeInfo where
  Host : String
  TCPHost : String
  deriving DecidableEq

/-- The Metadata Document: the version counter Index plus cluster
membership (the remaining cluster state is opaque to the claims). -/
structure Data where
  Index : Nat
  MetaNodes : List NodeInfo
  deriving DecidableEq

/-- Modelled from the spec: Data.Clone (data.go, not under src) produces a
fully independent deep copy of the Document; in a value semantics the copy
is the same value. -/
def Data.Clone (d : Data) : Data :=
  { Index := d.Index, MetaNodes := d.MetaNodes }

/-- The store configuration fields the claims depend on. -/
structure Config where
  Dir : String
  JoinPeers : List String
  HTTPSEnabled : Bool
  LoggingEnabled : Bool
  deriving DecidableEq

/-- Modelled from the spec: the consensus module handle (raft_state.go, not
under src). It records the initial membership it was opened with and the
leader address it currently reports. -/
structure raftState where
  peers : List String
  leaderAddr : String
  deriving DecidableEq

/-- The store state of services/meta/store.go. The closing channel is
modelled by the flag closingClosed; dataChanged is a channel id. -/
structure store where
  closingClosed : Bool
  config : Config
  data : Data
  raftState : Option raftState
  dataChanged : Nat
  path : String
  opened : Bool
  deriving DecidableEq

/-- newStore creates a new metastore from the passed config, with the
Document at Index 1 and fresh closing and dataChanged channels. -/
def newStore (c : Config) (cs : ChanSys) : store × ChanSys :=
  let (dc, cs1) := cs.alloc
  ({ closingClosed := false
     config := c
     data := { Index := 1, MetaNodes := [] }
     raftState := none
     dataChanged := dc
     path := c.Dir
     opened := false }, cs1)

/-- A Go runtime panic relevant to these claims. -/
inductive GoPanic
  | closeOfClosedChannel
  deriving DecidableEq

/-- store.close: closes the closing channel under the write lock and
returns a nil error. Go panics when the channel is already closed. -/
def store.close (s : store) : Except GoPanic (Option String × store) :=
  if s.closingClosed then
    .error .closeOfClosedChannel
  else
    .ok (none, { s with closingClosed := true })

/-- store.snapshot: returns a clone of the current Document and a nil
error, under the read lock. -/
def store.snapshot (s : store) : Data × Option String :=
  (s.data.Clone, none)

/-- store.afterIndex: with a stale index, allocate a fresh channel, close
it and return it; otherwise return the shared dataChanged channel. -/
def store.afterIndex (s : store) (index : Nat) (cs : ChanSys) : Nat × ChanSys :=
  if index < s.data.Index then
    let (ch, cs1) := cs.alloc
    (ch, cs1.closeChan ch)
  else
    (s.dataChanged, cs)

/-- store.index: the current Document version. -/
def store.index (s : store) : Nat :=
  s.data.Index

/-- store.leader: the leader the consensus module reports, or the empty
string when no consensus module is attached. -/
def store.leader (s : store) : String :=
  match s.raftState with
  | none => ""
  | some rs => rs.leaderAddr

/-- Modelled from the spec: the commit callback of the consensus module
(the fsm apply path, not under src) mutates the Document, increments Index
by exactly one, closes the current dataChanged channel and installs a
fresh one, all under the write lock. -/
def store.applyCommit (s : store) (f : List NodeInfo → List NodeInfo)
    (cs : ChanSys) : store × ChanSys :=
  let (fresh, cs1) := cs.alloc
  ({ s with
      data := { Index := s.data.Index + 1, MetaNodes := f s.data.MetaNodes }
      dataChanged := fresh },
   cs1.closeChan s.dataChanged)

/-- A sequence of committed mutations applied in commit order. -/
def store.applySeq (s : store) (muts : List (List NodeInfo → List NodeInfo))
    (cs : ChanSys) : store × ChanSys :=
  match muts with
  | [] => (s, cs)
  | m :: ms =>
    let (s1, cs1) := s.applyCommit m cs
    store.applySeq s1 ms cs1

/-- One outcome of the select statement in the waitForLeader loop: the
closing case was taken, the timeout timer case was taken, or the 100 ms
ticker case was taken while a leader was or was not known. -/
inductive WFLEvent
  | closingRecv
  | timerFire
  | tick (leaderKnown : Bool)
  deriving DecidableEq

/-- Where the waitForLeader loop stands after a finite run of select
outcomes: still blocked, returned nil, or returned an error. -/
inductive WFLResult
  | pending
  | ok
  | closingErr
  | timeoutErr
  deriving DecidableEq

/-- store.waitForLeader over a trace of select outcomes. The closing case
returns the closing error; the timer case returns the timeout error only
when the timeout is nonzero; the ticker case returns nil once a leader is
known. A zero timeout means wait forever. -/
def store.waitForLeader (timeout : Nat) : List WFLEvent → WFLResult
  | [] => .pending
  | .closingRecv :: _ => .closingErr
  | .timerFire :: es =>
    if timeout ≠ 0 then .timeoutErr else store.waitForLeader timeout es
  | .tick b :: es =>
    if b then .ok else store.waitForLeader timeout es

/-- A select outcome that leaves the waitForLeader loop still waiting. -/
def WFLEvent.keepsWaiting (timeout : Nat) (e : WFLEvent) : Bool :=
  match e with
  | .closingRecv => false
  | .timerFire => timeout == 0
  | .tick b => !b

/-- One poll iteration of the raft listener startup loop in store.open,
at 10 ms per tick against the 1000 ms deadline. lnAddr gives the address
the listener reports at each tick, none while still unbound. -/
def pollLoop (lnAddr : Nat → Option String) : Nat → Nat → Option String
  | _, 0 => none
  | k, fuel + 1 =>
    match lnAddr k with
    | some a => some a
    | none => if 1000 < 10 * k then none else pollLoop lnAddr (k + 1) fuel

/-- The listener startup wait of store.open: poll every 10 ms until the
address is available or the 1 second deadline has elapsed. 102 iterations
cover every reachable tick (the check at tick 101 is the first past the
deadline). -/
def waitForListener (lnAddr : Nat → Option String) : Option String :=
  pollLoop lnAddr 0 102

/-- Modelled from the spec: the join client (meta client, not under src).
CreateMetaNode registers this node with the cluster and may fail;
retryUntilSnapshot retries until it obtains a membership snapshot, given
here as snapshotData. -/
structure MetaClient where
  createMetaNodeErr : Bool
  snapshotData : Data
  deriving DecidableEq

/-- Modelled from the spec: retryUntilSnapshot eventually yields the
membership snapshot of the cluster. -/
def MetaClient.retryUntilSnapshot (c : MetaClient) : Data :=
  c.snapshotData

/-- Errors store.open can return. -/
inductive OpenError
  | listenerTimeout
  | joinFailed
  | storeOpen
  | mkdirFailed
  | raftFailed
  | closing
  | timeout
  deriving DecidableEq

/-- store.joinCluster: registers this node through the client, fetches the
membership snapshot, and returns the TCPHost of every meta node in the
snapshot, in order. -/
def store.joinCluster (s : store) (client : MetaClient)
    (httpAddr raftAddr : String) (metaServers : List String) :
    Except OpenError (List String) :=
  if client.createMetaNodeErr then
    .error .joinFailed
  else
    .ok (client.retryUntilSnapshot.MetaNodes.map (fun n => n.TCPHost))

/-- store.openRaft: opens the consensus module with the initial peers and
stores its handle; on failure the handle stays unset. -/
def store.openRaft (s : store) (raftOk : Bool) (leader0 : String)
    (initializePeers : List String) : Except OpenError store :=
  if raftOk then
    .ok { s with raftState := some { peers := initializePeers, leaderAddr := leader0 } }
  else
    .error .raftFailed

/-- Externally visible side effects of store.open, in program order. -/
inductive OpenAction
  | joinAction (httpAddr raftAddr : String) (peers : List String)
  | mkdirAction (path : String)
  | openRaftAction (peers : List String)
  | waitLeaderAction
  deriving DecidableEq

/-- How a run of store.open ended: returned nil, still blocked in the
final leader wait, or returned an error. -/
inductive OpenRes
  | ok
  | blocked
  | err (e : OpenError)
  deriving DecidableEq

/-- The outcome of a run of store.open: its result, the store and channel
system afterwards, and the side effects it performed in order. -/
structure OpenOutcome where
  result : OpenRes
  st : store
  chans : ChanSys
  actions : List OpenAction
  deriving DecidableEq

/-- store.open: wait for the raft listener address, join the cluster when
seed peers are configured, then under the write lock reject a second open,
make the data directory and open the consensus module, and finally block
in waitForLeader with a zero timeout. The external collaborators (listener
binding, join client, mkdir, consensus open, leader observations) enter as
parameters. -/
def store.openS (s : store) (cs : ChanSys) (addr : String)
    (lnAddr : Nat → Option String) (client : MetaClient)
    (mkdirOk : Bool) (raftOk : Bool) (leader0 : String)
    (wfl : List WFLEvent) : OpenOutcome :=
  match waitForListener lnAddr with
  | none => ⟨.err .listenerTimeout, s, cs, []⟩
  | some raftAddr =>
    let joinStep : Except OpenError (List String) × List OpenAction :=
      if s.config.JoinPeers.isEmpty then (.ok [], [])
      else
        match s.joinCluster client addr raftAddr s.config.JoinPeers with
        | .error e => (.error e, [.joinAction addr raftAddr []])
        | .ok peers => (.ok peers, [.joinAction addr raftAddr peers])
    match joinStep with
    | (.error e, acts) => ⟨.err e, s, cs, acts⟩
    | (.ok initializePeers, acts) =>
      if s.opened then ⟨.err .storeOpen, s, cs, acts⟩
      else
        let s1 := { s with opened := true }
        if !mkdirOk then
          ⟨.err .mkdirFailed, s1, cs, acts ++ [.mkdirAction s1.path]⟩
        else
          match s1.openRaft raftOk leader0 initializePeers with
          | .error e =>
            ⟨.err e, s1, cs,
             acts ++ [.mkdirAction s1.path, .openRaftAction initializePeers]⟩
          | .ok s2 =>
            ⟨(match store.waitForLeader 0 wfl with
              | .pending => .blocked
              | .ok => .ok
              | .closingErr => .err .closing
              | .timeoutErr => .err .timeout),
             s2, cs,
             acts ++ [.mkdirAction s1.path, .openRaftAction initializePeers,
                      .waitLeaderAction]⟩

/-- A heap of Document cells, for stating that a snapshot clone is
independent of the live Document the store mutates in place. Cells are
addressed by Nat references; an update shadows the previous binding. -/
structure Heap where
  mem : List (Nat × Data)
  next : Nat
  deriving DecidableEq

/-- Read the Document stored at a reference. -/
def Heap.get (h : Heap) (r : Nat) : Data :=
  (h.mem.lookup r).getD { Index := 0, MetaNodes := [] }

/-- Modelled from the spec: Data.Clone (data.go, not under src) allocates
a fresh cell holding an independent copy of the Document value. -/
def Heap.clone (h : Heap) (r : Nat) : Nat × Heap :=
  (h.next, ⟨(h.next, h.get r) :: h.mem, h.next + 1⟩)

/-- The heap-level view of the store: it owns one live Document cell. -/
structure hstore where
  dataRef : Nat
  deriving DecidableEq

/-- store.snapshot at the heap level: clone the current Document. -/
def hstore.snapshot (s : hstore) (h : Heap) : Nat × Heap :=
  h.clone s.dataRef

/-- Modelled from the spec: the commit callback mutates the Document in
place through the store reference, incrementing Index by one. -/
def hstore.applyCommit (s : hstore) (h : Heap)
    (f : List NodeInfo → List NodeInfo) : Heap :=
  let d := h.get s.dataRef
  ⟨(s.dataRef, { Index := d.Index + 1, MetaNodes := f d.MetaNodes }) :: h.mem, h.next⟩

/-- A sequence of in-place commits at the heap level. -/
def hstore.applyList (s : hstore) (h : Heap)
    (muts : List (List NodeInfo → List NodeInfo)) : Heap :=
  match muts with
  | [] => h
  | m :: ms => hstore.applyList s (s.applyCommit h m) ms

/-- The open mode a file operation used. -/
inductive OpenMode
  | readOnly
  | writeOnly
  | readWrite
  deriving DecidableEq

/-- A file operation attempted against the filesystem. -/
inductive FileOp
  | openOp (path : String) (mode : OpenMode)
  | writeOp (path : String) (contents : String)
  deriving DecidableEq

/-- Errors of the node persistence path. -/
inductive FileError
  | notExist
  | writeOnReadOnlyHandle
  deriving DecidableEq

/-- filepath.Join on two components. -/
def filepathJoin (a b : String) : String :=
  if a = "" then b else a ++ "/" ++ b

/-- The filesystem as a map from paths to contents. -/
structure FS where
  files : List (String × String)
  deriving DecidableEq

/-- The fixed name of the node identity file. -/
def nodeFile : String := "node.json"

/-- The local node identity record. -/
structure Node where
  path : String
  ID : Nat
  MetaServers : List String
  deriving DecidableEq

/-- Node.Save: builds the temporary path by joining the directory, the
node file name and the literal tmp as path segments, then opens that path
with os.Open, which is read-only open. A missing path makes the open fail;
an existing path yields a read-only handle, so the JSON encode that writes
to it fails. Either way nothing is written. Returns the error, the
filesystem afterwards, and the file operations attempted. -/
def Node.Save (n : Node) (fs : FS) : Option FileError × FS × List FileOp :=
  let tmpFile := filepathJoin (filepathJoin n.path nodeFile) "tmp"
  match fs.files.lookup tmpFile with
  | none => (some .notExist, fs, [.openOp tmpFile .readOnly])
  | some _ => (some .writeOnReadOnlyHandle, fs, [.openOp tmpFile .readOnly])

/-- A network listener handle; closing it yields its close error, nil on
success. -/
structure netListener where
  closeErr : Option String
  deriving DecidableEq

/-- Which shutdown branch Service.Close took. -/
inductive CloseAction
  | closeListener
  | closeStore
  deriving DecidableEq

/-- The meta Service of services/meta/service.go, reduced to the fields
its Close path touches. -/
structure Service where
  ln : Option netListener
  store : store
  deriving DecidableEq

/-- Service.Close: when the HTTP listener is set, close it and return its
error immediately; only when it is nil is store.close reached. -/
def Service.Close (svc : Service) :
    Except GoPanic (Option String × Service × List CloseAction) :=
  match svc.ln with
  | some l => .ok (l.closeErr, svc, [.closeListener])
  | none =>
    match svc.store.close with
    | .error p => .error p
    | .ok (e, st1) => .ok (e, { svc with store := st1 }, [.closeStore])

theorem applySeq_index_add :
    ∀ (muts : List (List NodeInfo → List NodeInfo)) (s : store) (cs : ChanSys),
      ((store.applySeq s muts cs).1).data.Index = s.data.Index + muts.length := by
  intro muts
  induction muts with
  | nil => intro s cs; rfl
  | cons m ms ih =>
    intro s cs
    show ((store.applySeq (s.applyCommit m cs).1 ms (s.applyCommit m cs).2).1).data.Index
        = s.data.Index + (ms.length + 1)
    rw [ih]
    show (s.data.Index + 1) + ms.length = s.data.Index + (ms.length + 1)
    omega

/-- Claim C5: a newly constructed store has Document Index 1, every
committed mutation increments the Index by exactly one, the Index is
strictly increasing across commits, and after any sequence of n commits
on a fresh store the Index equals 1 + n. -/
theorem index_starts_at_one_and_increments (c : Config) (cs : ChanSys) :
    ((newStore c cs).1).data.Index = 1
    ∧ (∀ (s : store) (f : List NodeInfo → List NodeInfo) (cs1 : ChanSys),
        ((s.applyCommit f cs1).1).data.Index = s.data.Index + 1)
    ∧ (∀ (s : store) (f : List NodeInfo → List NodeInfo) (cs1 : ChanSys),
        s.data.Index < ((s.applyCommit f cs1).1).data.Index)
    ∧ (∀ (muts : List (List NodeInfo → List NodeInfo)) (cs1 : ChanSys),
        ((store.applySeq (newStore c cs).1 muts cs1).1).data.Index
          = 1 + muts.length) := by
  refine ⟨rfl, fun s f cs1 => rfl, fun s f cs1 => Nat.lt_succ_self _, fun muts cs1 => ?_⟩
  rw [applySeq_index_add]
  rfl

/-- Claim C1: the spec requires a second close to be a no-op, but the code
closes the closing channel unguarded. On a fresh store the first close
returns a nil error, and a second close panics with close of closed
channel. -/
theorem close_second_call_panics :
    (store.close (newStore ⟨"d", [], false, false⟩ ⟨0, []⟩).1)
      = .ok (none, ⟨true, ⟨"d", [], false, false⟩, ⟨1, []⟩, none, 0, "d", false⟩)
    ∧ store.close ⟨true, ⟨"d", [], false, false⟩, ⟨1, []⟩, none, 0, "d", false⟩
      = .error .closeOfClosedChannel :=
  ⟨rfl, rfl⟩

/-- Claim C2: given the dataChanged channel is not yet signaled, a query
with an index behind the current Document Index returns an
already-signaled channel; a query at or above the current Index returns
the shared dataChanged channel unchanged and unsignaled, which is signaled
by the next commit. -/
theorem afterIndex_signaling (s : store) (cs : ChanSys) (i : Nat)
    (h : s.dataChanged ∉ cs.closedIds) :
    (i < s.data.Index →
      ((s.afterIndex i cs).2).isClosed (s.afterIndex i cs).1 = true)
    ∧ (s.data.Index ≤ i →
      (s.afterIndex i cs).1 = s.dataChanged
      ∧ (s.afterIndex i cs).2 = cs
      ∧ cs.isClosed s.dataChanged = false
      ∧ ∀ f : List NodeInfo → List NodeInfo,
          ((s.applyCommit f cs).2).isClosed s.dataChanged = true) := by
  constructor
  · intro hlt
    simp [store.afterIndex, hlt, ChanSys.alloc, ChanSys.closeChan, ChanSys.isClosed]
  · intro hle
    have hnlt : ¬ i < s.data.Index := Nat.not_lt.mpr hle
    refine ⟨by simp [store.afterIndex, hnlt], by simp [store.afterIndex, hnlt], ?_, ?_⟩
    · simp [ChanSys.isClosed]
      exact h
    · intro f
      simp [store.applyCommit, ChanSys.alloc, ChanSys.closeChan, ChanSys.isClosed]

theorem afterIndex_signaling_witness :
    ((store.afterIndex ⟨false, ⟨"d", [], false, false⟩, ⟨1, []⟩, none, 0, "d", false⟩
        0 ⟨1, []⟩).2).isClosed
      (store.afterIndex ⟨false, ⟨"d", [], false, false⟩, ⟨1, []⟩, none, 0, "d", false⟩
        0 ⟨1, []⟩).1 = true :=
  (afterIndex_signaling ⟨false, ⟨"d", [], false, false⟩, ⟨1, []⟩, none, 0, "d", false⟩
    ⟨1, []⟩ 0 (by decide)).1 (by decide)

theorem waitForLeader_keepsWaiting_append (t : Nat) :
    ∀ (pre rest : List WFLEvent), (∀ e ∈ pre, e.keepsWaiting t = true) →
      store.waitForLeader t (pre ++ rest) = store.waitForLeader t rest := by
  intro pre
  induction pre with
  | nil => intro rest _; rfl
  | cons e es ih =>
    intro rest h
    cases e with
    | closingRecv =>
      exact absurd (h .closingRecv (by simp)) (by simp [WFLEvent.keepsWaiting])
    | timerFire =>
      have ht : t = 0 := by
        have := h .timerFire (by simp)
        simpa [WFLEvent.keepsWaiting] using this
      subst ht
      show store.waitForLeader 0 (.timerFire :: (es ++ rest)) = _
      rw [store.waitForLeader]
      simp only [ne_eq, not_true_eq_false, if_false]
      exact ih rest (fun x hx => h x (by simp [hx]))
    | tick b =>
      have hb : b = false := by
        have := h (.tick b) (by simp)
        simpa [WFLEvent.keepsWaiting] using this
      subst hb
      show store.waitForLeader t (.tick false :: (es ++ rest)) = _
      rw [store.waitForLeader]
      rw [if_neg (by simp)]
      exact ih rest (fun x hx => h x (by simp [hx]))

theorem waitForLeader_zero_no_timeout :
    ∀ es : List WFLEvent, store.waitForLeader 0 es ≠ .timeoutErr := by
  intro es
  induction es with
  | nil => simp [store.waitForLeader]
  | cons e es ih =>
    cases e with
    | closingRecv => simp [store.waitForLeader]
    | timerFire => simpa [store.waitForLeader] using ih
    | tick b => cases b <;> simp [store.waitForLeader, ih]

/-- Claim C4: with a zero timeout waitForLeader never returns the timeout
error and only finishes by observing a leader or the closing signal; with
a nonzero timeout the timer firing without a prior leader or closing
returns the timeout error; and whenever the closing signal is received
before any returning event the closing error is returned. -/
theorem waitForLeader_contract (t : Nat) (es : List WFLEvent) :
    store.waitForLeader 0 es ≠ .timeoutErr
    ∧ (∀ pre post, es = pre ++ WFLEvent.timerFire :: post → t ≠ 0 →
        (∀ e ∈ pre, e.keepsWaiting t = true) →
        store.waitForLeader t es = .timeoutErr)
    ∧ (∀ pre post, es = pre ++ WFLEvent.closingRecv :: post →
        (∀ e ∈ pre, e.keepsWaiting t = true) →
        store.waitForLeader t es = .closingErr)
    ∧ (∀ pre post, es = pre ++ WFLEvent.tick true :: post →
        (∀ e ∈ pre, e.keepsWaiting t = true) →
        store.waitForLeader t es = .ok) := by
  refine ⟨waitForLeader_zero_no_timeout es, ?_, ?_, ?_⟩
  · intro pre post hes ht h
    rw [hes, waitForLeader_keepsWaiting_append t pre _ h]
    simp [store.waitForLeader, ht]
  · intro pre post hes h
    rw [hes, waitForLeader_keepsWaiting_append t pre _ h]
    rfl
  · intro pre post hes h
    rw [hes, waitForLeader_keepsWaiting_append t pre _ h]
    simp [store.waitForLeader]

theorem waitForLeader_contract_witness :
    store.waitForLeader 1 [WFLEvent.tick false, WFLEvent.timerFire] = .timeoutErr :=
  (waitForLeader_contract 1 [WFLEvent.tick false, WFLEvent.timerFire]).2.1
    [WFLEvent.tick false] [] rfl (by decide) (by decide)

/-- Claim C3: when the listener comes up and the join client does not
fail, open on a store whose previous open already succeeded returns the
store-already-open error and leaves the store state and the channel
system exactly as they were. -/
theorem open_already_open (s : store) (cs : ChanSys) (addr ra : String)
    (lnAddr : Nat → Option String) (client : MetaClient)
    (mkdirOk raftOk : Bool) (leader0 : String) (wfl : List WFLEvent)
    (hln : waitForListener lnAddr = some ra)
    (hjoin : client.createMetaNodeErr = false)
    (hopened : s.opened = true) :
    (s.openS cs addr lnAddr client mkdirOk raftOk leader0 wfl).result
      = .err .storeOpen
    ∧ (s.openS cs addr lnAddr client mkdirOk raftOk leader0 wfl).st = s
    ∧ (s.openS cs addr lnAddr client mkdirOk raftOk leader0 wfl).chans = cs := by
  unfold store.openS
  rw [hln]
  by_cases hj : s.config.JoinPeers.isEmpty <;>
    simp [hj, store.joinCluster, hjoin, hopened]

theorem open_already_open_witness :
    (store.openS ⟨false, ⟨"d", [], false, false⟩, ⟨1, []⟩, none, 0, "d", true⟩
      ⟨1, []⟩ "a" (fun _ => some "r") ⟨false, ⟨1, []⟩⟩ true true "L" []).result
      = .err .storeOpen :=
  (open_already_open ⟨false, ⟨"d", [], false, false⟩, ⟨1, []⟩, none, 0, "d", true⟩
    ⟨1, []⟩ "a" "r" (fun _ => some "r") ⟨false, ⟨1, []⟩⟩ true true "L" []
    rfl rfl rfl).1

theorem pollLoop_all_none (lnAddr : Nat → Option String) :
    ∀ (fuel k : Nat), k + fuel = 102 →
      (∀ j, j ≤ 101 → lnAddr j = none) → pollLoop lnAddr k fuel = none := by
  intro fuel
  induction fuel with
  | zero => intro k _ _; rfl
  | succ f ih =>
    intro k hk h
    have hk101 : k ≤ 101 := by omega
    rw [pollLoop, h k hk101]
    by_cases hc : 1000 < 10 * k
    · simp [hc]
    · simp only [hc, if_false]
      exact ih (k + 1) (by omega) h

theorem pollLoop_first_some (lnAddr : Nat → Option String) (m : Nat) (a : String) :
    ∀ (fuel k : Nat), k + fuel = 102 → k ≤ m → m ≤ 101 →
      (∀ j, j < m → lnAddr j = none) → lnAddr m = some a →
      pollLoop lnAddr k fuel = some a := by
  intro fuel
  induction fuel with
  | zero => intro k hk hkm hm _ _; omega
  | succ f ih =>
    intro k hk hkm hm hnone hsome
    by_cases hke : k = m
    · subst hke
      rw [pollLoop, hsome]
    · have hklt : k < m := Nat.lt_of_le_of_ne hkm hke
      have h1 : lnAddr k = none := hnone k hklt
      have h2 : ¬ (1000 < 10 * k) := by omega
      rw [pollLoop, h1]
      simp only [h2, if_false]
      exact ih (k + 1) (by omega) (by omega) hm hnone hsome

theorem openS_no_listener_timeout_of_bound (s : store) (cs : ChanSys)
    (addr ra : String) (lnAddr : Nat → Option String) (client : MetaClient)
    (mkdirOk raftOk : Bool) (leader0 : String) (wfl : List WFLEvent)
    (hln : waitForListener lnAddr = some ra) :
    (s.openS cs addr lnAddr client mkdirOk raftOk leader0 wfl).result
      ≠ .err .listenerTimeout := by
  unfold store.openS
  rw [hln]
  by_cases hj : s.config.JoinPeers.isEmpty <;>
    by_cases hc : client.createMetaNodeErr <;>
    by_cases ho : s.opened <;>
    by_cases hm : mkdirOk <;>
    by_cases hr : raftOk <;>
    cases hwf : store.waitForLeader 0 wfl <;>
    simp [hj, hc, ho, hm, hr, hwf, store.joinCluster, store.openRaft]

/-- Claim C7: open polls the listener address every 10 ms; when the
address is still absent at every poll up to the 1 second deadline, open
fails with the listener timeout error, leaving the store and channel
system untouched and performing no join, mkdir or consensus-module
action; when the address first appears at some poll within the deadline,
open does not fail with the listener timeout error. -/
theorem open_listener_deadline (s : store) (cs : ChanSys) (addr : String)
    (lnAddr : Nat → Option String) (client : MetaClient)
    (mkdirOk raftOk : Bool) (leader0 : String) (wfl : List WFLEvent) :
    ((∀ j, j ≤ 101 → lnAddr j = none) →
      s.openS cs addr lnAddr client mkdirOk raftOk leader0 wfl
        = ⟨.err .listenerTimeout, s, cs, []⟩)
    ∧ (∀ m a, m ≤ 101 → (∀ j, j < m → lnAddr j = none) → lnAddr m = some a →
      (s.openS cs addr lnAddr client mkdirOk raftOk leader0 wfl).result
        ≠ .err .listenerTimeout) := by
  constructor
  · intro h
    have hnone : waitForListener lnAddr = none :=
      pollLoop_all_none lnAddr 102 0 rfl h
    unfold store.openS
    rw [hnone]
  · intro m a hm hprev hsome
    have hbound : waitForListener lnAddr = some a :=
      pollLoop_first_some lnAddr m a 102 0 rfl (Nat.zero_le m) hm hprev hsome
    exact openS_no_listener_timeout_of_bound s cs addr a lnAddr client
      mkdirOk raftOk leader0 wfl hbound

theorem open_listener_deadline_witness :
    store.openS ⟨false, ⟨"d", [], false, false⟩, ⟨1, []⟩, none, 0, "d", false⟩
      ⟨1, []⟩ "a" (fun _ => none) ⟨false, ⟨1, []⟩⟩ true true "L" []
      = ⟨.err .listenerTimeout,
         ⟨false, ⟨"d", [], false, false⟩, ⟨1, []⟩, none, 0, "d", false⟩,
         ⟨1, []⟩, []⟩ :=
  (open_listener_deadline ⟨false, ⟨"d", [], false, false⟩, ⟨1, []⟩, none, 0, "d", false⟩
    ⟨1, []⟩ "a" (fun _ => none) ⟨false, ⟨1, []⟩⟩ true true "L" []).1
    (fun _ _ => rfl)

/-- Claim C8: with a non-empty seed-peer list, a working join client, a
bound listener, a not-yet-opened store and succeeding mkdir and consensus
open, joinCluster returns exactly the TCPHost of every member of the
fetched membership snapshot in snapshot order, open performs the join
strictly before opening the consensus module, and that peer list is the
initial membership the consensus module is opened with. -/
theorem open_join_before_raft (s : store) (cs : ChanSys) (addr ra : String)
    (lnAddr : Nat → Option String) (client : MetaClient)
    (leader0 : String) (wfl : List WFLEvent)
    (hln : waitForListener lnAddr = some ra)
    (hpeers : s.config.JoinPeers ≠ [])
    (hjoin : client.createMetaNodeErr = false)
    (hopened : s.opened = false) :
    s.joinCluster client addr ra s.config.JoinPeers
      = .ok (client.snapshotData.MetaNodes.map (fun n => n.TCPHost))
    ∧ (s.openS cs addr lnAddr client true true leader0 wfl).st.raftState
      = some ⟨client.snapshotData.MetaNodes.map (fun n => n.TCPHost), leader0⟩
    ∧ (s.openS cs addr lnAddr client true true leader0 wfl).actions
      = [.joinAction addr ra (client.snapshotData.MetaNodes.map (fun n => n.TCPHost)),
         .mkdirAction s.path, .openRaftAction
           (client.snapshotData.MetaNodes.map (fun n => n.TCPHost)),
         .waitLeaderAction] := by
  have hje : s.config.JoinPeers.isEmpty = false := by
    cases h : s.config.JoinPeers with
    | nil => exact absurd h hpeers
    | cons x xs => rfl
  refine ⟨by simp [store.joinCluster, hjoin, MetaClient.retryUntilSnapshot], ?_, ?_⟩ <;>
  · unfold store.openS
    rw [hln]
    simp [hje, store.joinCluster, hjoin, hopened, store.openRaft,
      MetaClient.retryUntilSnapshot]

theorem open_join_before_raft_witness :
    (store.openS ⟨false, ⟨"d", ["p1"], false, false⟩, ⟨1, []⟩, none, 0, "d", false⟩
      ⟨1, []⟩ "a" (fun _ => some "r")
      ⟨false, ⟨3, [⟨"h1", "t1"⟩, ⟨"h2", "t2"⟩]⟩⟩ true true "L" []).actions
      = [.joinAction "a" "r" ["t1", "t2"], .mkdirAction "d",
         .openRaftAction ["t1", "t2"], .waitLeaderAction] :=
  (open_join_before_raft
    ⟨false, ⟨"d", ["p1"], false, false⟩, ⟨1, []⟩, none, 0, "d", false⟩
    ⟨1, []⟩ "a" "r" (fun _ => some "r")
    ⟨false, ⟨3, [⟨"h1", "t1"⟩, ⟨"h2", "t2"⟩]⟩⟩ "L" []
    rfl (by decide) rfl rfl).2.2

theorem applyList_get_of_ne (s : hstore) (r : Nat) (hr : r ≠ s.dataRef) :
    ∀ (muts : List (List NodeInfo → List NodeInfo)) (h : Heap),
      Heap.get (s.applyList h muts) r = Heap.get h r := by
  intro muts
  induction muts with
  | nil => intro h; rfl
  | cons m ms ih =>
    intro h
    show Heap.get (s.applyList (s.applyCommit h m) ms) r = Heap.get h r
    rw [ih]
    have hb : (r == s.dataRef) = false := beq_eq_false_iff_ne.mpr hr
    simp [hstore.applyCommit, Heap.get, List.lookup, hb]

/-- Claim C6: the snapshot clone reads back exactly the Document the store
held when the snapshot was taken, and after any sequence of later commits
mutating the live Document in place, the clone still reads back that same
value. -/
theorem snapshot_clone_independent (s : hstore) (h : Heap)
    (hwf : s.dataRef < h.next) :
    Heap.get (s.snapshot h).2 (s.snapshot h).1 = Heap.get h s.dataRef
    ∧ ∀ muts : List (List NodeInfo → List NodeInfo),
        Heap.get (s.applyList (s.snapshot h).2 muts) (s.snapshot h).1
          = Heap.get h s.dataRef := by
  have hget : Heap.get (s.snapshot h).2 (s.snapshot h).1 = Heap.get h s.dataRef := by
    simp [hstore.snapshot, Heap.clone, Heap.get, List.lookup]
  refine ⟨hget, fun muts => ?_⟩
  have hne : (s.snapshot h).1 ≠ s.dataRef := by
    simp only [hstore.snapshot, Heap.clone]
    omega
  rw [applyList_get_of_ne s _ hne muts, hget]

theorem snapshot_clone_independent_witness :
    Heap.get
      (hstore.applyList ⟨0⟩
        ((hstore.snapshot ⟨0⟩ ⟨[(0, ⟨1, []⟩)], 1⟩).2) [fun l => l])
      (hstore.snapshot ⟨0⟩ ⟨[(0, ⟨1, []⟩)], 1⟩).1
      = Heap.get ⟨[(0, ⟨1, []⟩)], 1⟩ 0 :=
  (snapshot_clone_independent ⟨0⟩ ⟨[(0, ⟨1, []⟩)], 1⟩ (by decide)).2 [fun l => l]

/-- Claim C9: Node.Save opens its destination read-only and builds its
temporary path by joining the node file name and the literal tmp as a
path segment; for every node whose directory does not contain the path
node.json/tmp, Save returns an error, leaves the filesystem unchanged,
attempts only a single read-only open and performs no write. -/
theorem node_save_fails_without_tmp_path (n : Node) (fs : FS)
    (h : fs.files.lookup (filepathJoin (filepathJoin n.path nodeFile) "tmp")
      = none) :
    (n.Save fs).1 = some .notExist
    ∧ (n.Save fs).2.1 = fs
    ∧ (n.Save fs).2.2
      = [.openOp (filepathJoin (filepathJoin n.path nodeFile) "tmp") .readOnly]
    ∧ ∀ p c, FileOp.writeOp p c ∉ (n.Save fs).2.2 := by
  refine ⟨?_, ?_, ?_, ?_⟩ <;> simp [Node.Save, h]

theorem node_save_fails_without_tmp_path_witness :
    ((Node.Save ⟨"dir", 1, []⟩ ⟨[]⟩).1 = some .notExist) :=
  (node_save_fails_without_tmp_path ⟨"dir", 1, []⟩ ⟨[]⟩ rfl).1

/-- Claim C10: when the HTTP listener is set, Service.Close closes only
the listener and returns its error with the whole service, store
included, unchanged, so the closing signal of the store is not broadcast;
store.close is reached exactly when the listener is nil. -/
theorem service_close_listener_short_circuit (svc : Service) (l : netListener) :
    (svc.ln = some l →
      Service.Close svc = .ok (l.closeErr, svc, [CloseAction.closeListener]))
    ∧ (svc.ln = none → svc.store.closingClosed = false →
      Service.Close svc
        = .ok (none, ⟨none, { svc.store with closingClosed := true }⟩,
               [CloseAction.closeStore])) := by
  constructor
  · intro h
    simp [Service.Close, h]
  · intro h hc
    simp [Service.Close, h, store.close, hc]

theorem service_close_listener_short_circuit_witness :
    Service.Close ⟨some ⟨none⟩,
        ⟨false, ⟨"d", [], false, false⟩, ⟨1, []⟩, none, 0, "d", true⟩⟩
      = .ok (none,
          ⟨some ⟨none⟩, ⟨false, ⟨"d", [], false, false⟩, ⟨1, []⟩, none, 0, "d", true⟩⟩,
          [CloseAction.closeListener]) :=
  (service_close_listener_short_circuit
    ⟨some ⟨none⟩, ⟨false, ⟨"d", [], false, false⟩, ⟨1, []⟩, none, 0, "d", true⟩⟩
    ⟨none⟩).1 rfl

theorem chanInv_newStore (c : Config) (cs : ChanSys)
    (hcs : ∀ i ∈ cs.closedIds, i < cs.nextId) :
    ((newStore c cs).1.dataChanged < (newStore c cs).2.nextId
      ∧ (newStore c cs).1.dataChanged ∉ (newStore c cs).2.closedIds)
    ∧ ∀ i ∈ (newStore c cs).2.closedIds, i < (newStore c cs).2.nextId := by
  refine ⟨⟨Nat.lt_succ_self _, fun hmem => ?_⟩, fun i hi => ?_⟩
  · exact absurd (hcs _ hmem) (Nat.lt_irrefl _)
  · exact Nat.lt_succ_of_lt (hcs i hi)

theorem chanInv_applyCommit (s : store) (f : List NodeInfo → List NodeInfo)
    (cs : ChanSys) (hd : s.dataChanged < cs.nextId)
    (hcs : ∀ i ∈ cs.closedIds, i < cs.nextId) :
    ((s.applyCommit f cs).1.dataChanged < (s.applyCommit f cs).2.nextId
      ∧ (s.applyCommit f cs).1.dataChanged ∉ (s.applyCommit f cs).2.closedIds)
    ∧ ∀ i ∈ (s.applyCommit f cs).2.closedIds, i < (s.applyCommit f cs).2.nextId := by
  simp only [store.applyCommit, ChanSys.alloc, ChanSys.closeChan]
  refine ⟨⟨Nat.lt_succ_self _, fun hmem => ?_⟩, fun i hi => ?_⟩
  · rcases List.mem_cons.mp hmem with h1 | h2
    · exact absurd h1 (by omega)
    · exact absurd (hcs _ h2) (Nat.lt_irrefl _)
  · rcases List.mem_cons.mp hi with h1 | h2
    · omega
    · exact Nat.lt_succ_of_lt (hcs i h2)
